import Mathlib

/-!
Verification of the digipin codec: a reversible geocode over the rectangle
[2.5, 38.5] x [63.5, 99.5] at 2^20 cells per axis.  Coordinates are modelled
as exact rationals, code strings as lists of characters, and the fallible
Rust functions as `Except`-valued Lean functions.  There are two parallel
implementations in the crate: `encode.rs`/`decode.rs` built on the shared
tables of `constants.rs` (namespaces `Encode`/`Decode` below), and
`encoding.rs`/`decoding.rs` with a module-local lookup table and fast parse
paths (namespace `Decoding` below).
-/

namespace Digipin

/-- Error taxonomy of `src/src/error.rs` / `src/src/errors.rs`. -/
inductive DigipinError where
  | LatitudeOutOfRange (v : ℚ)
  | LongitudeOutOfRange (v : ℚ)
  | InvalidLength (n : Nat)
  | InvalidCharacter (c : Char)
deriving DecidableEq

/-- Coordinate pair of `src/src/coordinates.rs` / `src/src/types.rs`. -/
structure Coordinates where
  latitude : ℚ
  longitude : ℚ
deriving DecidableEq

/-- Geographic cell bounds returned by `get_bounds_from_digipin` (`src/src/types.rs`). -/
structure GeoBounds where
  min_latitude : ℚ
  max_latitude : ℚ
  min_longitude : ℚ
  max_longitude : ℚ
deriving DecidableEq

/-- Bounding-rectangle record of `src/src/constants.rs`. -/
structure Bounds where
  min_lat : ℚ
  max_lat : ℚ
  min_lon : ℚ
  max_lon : ℚ

/-- The `BOUNDS` constant: min_lat=2.5, max_lat=38.5, min_lon=63.5, max_lon=99.5. -/
def BOUNDS : Bounds := ⟨5/2, 77/2, 127/2, 199/2⟩

/-- The span constant `SPAN = 36.0` (`src/src/constants.rs`). -/
def SPAN : ℚ := 36

/-- The precision constant `POWER = 1 << 20` (`src/src/constants.rs`). -/
def POWER : Nat := 2 ^ 20

/-- The 4x4 `DIGIPIN_GRID` of `src/src/constants.rs`. -/
def DIGIPIN_GRID : List (List Char) :=
  [['F', 'C', '9', '8'],
   ['J', '3', '2', '7'],
   ['K', '4', '5', '6'],
   ['L', 'M', 'P', 'T']]

/-- Total accessor for `DIGIPIN_GRID[row][col]` (the source always indexes with
`row, col < 4`, masked by `& 3`). -/
def gridAt (row col : Nat) : Char := (DIGIPIN_GRID.getD row []).getD col '?'

/-- The 16 valid grid symbols, row-major. -/
def SYMBOLS : List Char :=
  ['F', 'C', '9', '8', 'J', '3', '2', '7', 'K', '4', '5', '6', 'L', 'M', 'P', 'T']

/-- The shared `LOOKUP` array of `src/src/constants.rs`: inverse of the grid on
the 16 symbols, plus lowercase aliases `f c j k l m p t`; every other
character (the source array is indexed by code point < 128) yields `none`. -/
def LOOKUP : Char → Option (Nat × Nat)
  | 'F' => some (0, 0)
  | 'C' => some (0, 1)
  | '9' => some (0, 2)
  | '8' => some (0, 3)
  | 'J' => some (1, 0)
  | '3' => some (1, 1)
  | '2' => some (1, 2)
  | '7' => some (1, 3)
  | 'K' => some (2, 0)
  | '4' => some (2, 1)
  | '5' => some (2, 2)
  | '6' => some (2, 3)
  | 'L' => some (3, 0)
  | 'M' => some (3, 1)
  | 'P' => some (3, 2)
  | 'T' => some (3, 3)
  | 'f' => some (0, 0)
  | 'c' => some (0, 1)
  | 'j' => some (1, 0)
  | 'k' => some (2, 0)
  | 'l' => some (3, 0)
  | 'm' => some (3, 1)
  | 'p' => some (3, 2)
  | 't' => some (3, 3)
  | _ => none

namespace Encode

/-- Scaling of a normalized fraction to a cell index, as in `src/src/encode.rs`
line 43: `((frac * (POWER as f64)) as u32).min(POWER - 1)` (truncation toward
zero of a nonnegative value, then clamping to `POWER - 1`). -/
def scaleIndex (frac : ℚ) : Nat := min (⌊frac * (POWER : ℚ)⌋.toNat) (POWER - 1)

/-- The 12-character output assembled by the encoding loop of
`src/src/encode.rs` lines 46-57 (symbol at level `l` uses shift `18 - 2*l`;
a separator is pushed after levels 2 and 5). -/
def digipinChars (idxLat idxLon : Nat) : List Char :=
  [gridAt ((idxLat >>> 18) &&& 3) ((idxLon >>> 18) &&& 3),
   gridAt ((idxLat >>> 16) &&& 3) ((idxLon >>> 16) &&& 3),
   gridAt ((idxLat >>> 14) &&& 3) ((idxLon >>> 14) &&& 3),
   '-',
   gridAt ((idxLat >>> 12) &&& 3) ((idxLon >>> 12) &&& 3),
   gridAt ((idxLat >>> 10) &&& 3) ((idxLon >>> 10) &&& 3),
   gridAt ((idxLat >>> 8) &&& 3) ((idxLon >>> 8) &&& 3),
   '-',
   gridAt ((idxLat >>> 6) &&& 3) ((idxLon >>> 6) &&& 3),
   gridAt ((idxLat >>> 4) &&& 3) ((idxLon >>> 4) &&& 3),
   gridAt ((idxLat >>> 2) &&& 3) ((idxLon >>> 2) &&& 3),
   gridAt ((idxLat >>> 0) &&& 3) ((idxLon >>> 0) &&& 3)]

/-- Function `get_digipin` of `src/src/encode.rs` (identical to the copy in
`src/src/lib.rs`): range validation, normalization, scaling, symbol loop. -/
def get_digipin (latitude longitude : ℚ) : Except DigipinError (List Char) :=
  if ¬(BOUNDS.min_lat ≤ latitude ∧ latitude ≤ BOUNDS.max_lat) then
    .error (.LatitudeOutOfRange latitude)
  else if ¬(BOUNDS.min_lon ≤ longitude ∧ longitude ≤ BOUNDS.max_lon) then
    .error (.LongitudeOutOfRange longitude)
  else
    let frac_lat := (BOUNDS.max_lat - latitude) / SPAN
    let frac_lon := (longitude - BOUNDS.min_lon) / SPAN
    .ok (digipinChars (scaleIndex frac_lat) (scaleIndex frac_lon))

end Encode

namespace Decode

/-- Function `find_char_in_grid` of `src/src/decode.rs` lines 61-70: reject code points
above 127, then consult the shared `LOOKUP`. -/
def find_char_in_grid (ch : Char) : Except DigipinError (Nat × Nat) :=
  if 127 < ch.toNat then .error (.InvalidCharacter ch)
  else
    match LOOKUP ch with
    | some rc => .ok rc
    | none => .error (.InvalidCharacter ch)

/-- The `for _ in 0..10` loop of `src/src/decode.rs` lines 33-44: take the next
`fuel` characters, accumulating `idx = (idx << 2) | digit` (u32 arithmetic,
hence the `% 2 ^ 32`) and the running `count`; on exhaustion fail with
`InvalidLength count`.  Returns the accumulators, the count and the unconsumed
remainder of the character stream. -/
def decodeCore : Nat → List Char → Nat → Nat → Nat →
    Except DigipinError (Nat × Nat × Nat × List Char)
  | 0, rest, idxLat, idxLon, count => .ok (idxLat, idxLon, count, rest)
  | _ + 1, [], _, _, count => .error (.InvalidLength count)
  | n + 1, ch :: rest, idxLat, idxLon, count =>
    match find_char_in_grid ch with
    | .error e => .error e
    | .ok (row, col) =>
      decodeCore n rest (((idxLat <<< 2) % 2 ^ 32) ||| row)
        (((idxLon <<< 2) % 2 ^ 32) ||| col) (count + 1)

/-- Function `get_coordinates_from_digipin` of `src/src/decode.rs` (identical to the
copy in `src/src/lib.rs`): filter out separators, consume exactly 10 symbols,
reject a non-empty remainder with `InvalidLength (count + 1)`, and return the
center of the resulting cell. -/
def get_coordinates_from_digipin (digipin : List Char) : Except DigipinError Coordinates :=
  match decodeCore 10 (digipin.filter (fun c => c != '-')) 0 0 0 with
  | .error e => .error e
  | .ok (idxLat, idxLon, count, rest) =>
    match rest with
    | _ :: _ => .error (.InvalidLength (count + 1))
    | [] =>
      let frac_lat : ℚ := ((idxLat : ℚ) + 1/2) / (POWER : ℚ)
      let center_lat := BOUNDS.max_lat - frac_lat * SPAN
      let frac_lon : ℚ := ((idxLon : ℚ) + 1/2) / (POWER : ℚ)
      let center_lon := BOUNDS.min_lon + frac_lon * SPAN
      .ok ⟨center_lat, center_lon⟩

end Decode

namespace Decoding

/-- The module-local `LOOKUP` of `src/src/decoding.rs` lines 3-22: only the 16
uppercase/digit grid symbols, no lowercase aliases. -/
def LOOKUP : Char → Option (Nat × Nat)
  | 'F' => some (0, 0)
  | 'C' => some (0, 1)
  | '9' => some (0, 2)
  | '8' => some (0, 3)
  | 'J' => some (1, 0)
  | '3' => some (1, 1)
  | '2' => some (1, 2)
  | '7' => some (1, 3)
  | 'K' => some (2, 0)
  | '4' => some (2, 1)
  | '5' => some (2, 2)
  | '6' => some (2, 3)
  | 'L' => some (3, 0)
  | 'M' => some (3, 1)
  | 'P' => some (3, 2)
  | 'T' => some (3, 3)
  | _ => none

/-- Function `find_char_in_grid` of `src/src/decoding.rs` lines 57-67. -/
def find_char_in_grid (ch : Char) : Except DigipinError (Nat × Nat) :=
  if ch.toNat < 128 then
    match LOOKUP ch with
    | some rc => .ok rc
    | none => .error (.InvalidCharacter ch)
  else .error (.InvalidCharacter ch)

/-- Symbol-by-symbol accumulation used by both fast paths of `parse_ascii`
(`src/src/decoding.rs` lines 74-97): look every character up in the local
table and fold `idx = (idx << 2) | digit` over the list. -/
def foldSyms : List Char → Nat → Nat → Except DigipinError (Nat × Nat)
  | [], idxLat, idxLon => .ok (idxLat, idxLon)
  | ch :: rest, idxLat, idxLon =>
    match LOOKUP ch with
    | none => .error (.InvalidCharacter ch)
    | some (row, col) =>
      foldSyms rest (((idxLat <<< 2) % 2 ^ 32) ||| row) (((idxLon <<< 2) % 2 ^ 32) ||| col)

/-- The general `while i < len && count < 10` loop of `parse_ascii`
(`src/src/decoding.rs` lines 99-114): skip separators, look up symbols,
stop after 10 symbols; returns accumulators, count and the unconsumed
remainder. -/
def asciiLoop : List Char → Nat → Nat → Nat →
    Except DigipinError (Nat × Nat × Nat × List Char)
  | [], idxLat, idxLon, count => .ok (idxLat, idxLon, count, [])
  | ch :: rest, idxLat, idxLon, count =>
    if 10 ≤ count then .ok (idxLat, idxLon, count, ch :: rest)
    else if ch == '-' then asciiLoop rest idxLat idxLon count
    else
      match LOOKUP ch with
      | none => .error (.InvalidCharacter ch)
      | some (row, col) =>
        asciiLoop rest (((idxLat <<< 2) % 2 ^ 32) ||| row)
          (((idxLon <<< 2) % 2 ^ 32) ||| col) (count + 1)

/-- Function `parse_ascii` of `src/src/decoding.rs` lines 69-123: a fast path for
length 10, a fast path for length 12 with separators at byte positions 3 and 7
(reading the symbols at positions 0,1,2,4,5,6,8,9,10,11), and otherwise the
general loop followed by the too-few and trailing-junk checks. -/
def parse_ascii (digipin : List Char) : Except DigipinError (Nat × Nat) :=
  if digipin.length = 10 then foldSyms digipin 0 0
  else if digipin.length = 12 ∧ digipin.getD 3 '?' = '-' ∧ digipin.getD 7 '?' = '-' then
    foldSyms [digipin.getD 0 '?', digipin.getD 1 '?', digipin.getD 2 '?',
      digipin.getD 4 '?', digipin.getD 5 '?', digipin.getD 6 '?',
      digipin.getD 8 '?', digipin.getD 9 '?', digipin.getD 10 '?',
      digipin.getD 11 '?'] 0 0
  else
    match asciiLoop digipin 0 0 0 with
    | .error e => .error e
    | .ok (idxLat, idxLon, count, rest) =>
      if count < 10 then .error (.InvalidLength count)
      else if rest.all (fun c => c == '-') then .ok (idxLat, idxLon)
      else .error (.InvalidLength (count + 1))

/-- The `for _ in 0..10` loop of `parse_unicode` (`src/src/decoding.rs` lines
126-140), structurally the same as the loop of `src/src/decode.rs` but using
the module-local lookup. -/
def unicodeCore : Nat → List Char → Nat → Nat → Nat →
    Except DigipinError (Nat × Nat × Nat × List Char)
  | 0, rest, idxLat, idxLon, count => .ok (idxLat, idxLon, count, rest)
  | _ + 1, [], _, _, count => .error (.InvalidLength count)
  | n + 1, ch :: rest, idxLat, idxLon, count =>
    match find_char_in_grid ch with
    | .error e => .error e
    | .ok (row, col) =>
      unicodeCore n rest (((idxLat <<< 2) % 2 ^ 32) ||| row)
        (((idxLon <<< 2) % 2 ^ 32) ||| col) (count + 1)

/-- Function `parse_unicode` of `src/src/decoding.rs` lines 125-143: filter separators,
take 10 symbols, and reject a non-empty remainder with the fixed sentinel
`InvalidLength 11`. -/
def parse_unicode (digipin : List Char) : Except DigipinError (Nat × Nat) :=
  match unicodeCore 10 (digipin.filter (fun c => c != '-')) 0 0 0 with
  | .error e => .error e
  | .ok (idxLat, idxLon, _, rest) =>
    match rest with
    | [] => .ok (idxLat, idxLon)
    | _ :: _ => .error (.InvalidLength 11)

/-- The `is_ascii` dispatch shared by both decoding entry points of
`src/src/decoding.rs`. -/
def parseDigipin (digipin : List Char) : Except DigipinError (Nat × Nat) :=
  if digipin.all (fun c => c.toNat < 128) then parse_ascii digipin
  else parse_unicode digipin

/-- Function `get_coordinates_from_digipin` of `src/src/decoding.rs` lines 43-54. -/
def get_coordinates_from_digipin (digipin : List Char) : Except DigipinError Coordinates :=
  match parseDigipin digipin with
  | .error e => .error e
  | .ok (idxLat, idxLon) =>
    let frac_lat : ℚ := ((idxLat : ℚ) + 1/2) / (POWER : ℚ)
    let center_lat := BOUNDS.max_lat - frac_lat * SPAN
    let frac_lon : ℚ := ((idxLon : ℚ) + 1/2) / (POWER : ℚ)
    let center_lon := BOUNDS.min_lon + frac_lon * SPAN
    .ok ⟨center_lat, center_lon⟩

/-- Function `get_bounds_from_digipin` of `src/src/decoding.rs` lines 163-184. -/
def get_bounds_from_digipin (digipin : List Char) : Except DigipinError GeoBounds :=
  match parseDigipin digipin with
  | .error e => .error e
  | .ok (idxLat, idxLon) =>
    let min_frac_lat : ℚ := (idxLat : ℚ) / (POWER : ℚ)
    let max_frac_lat : ℚ := ((idxLat : ℚ) + 1) / (POWER : ℚ)
    let max_lat := BOUNDS.max_lat - min_frac_lat * SPAN
    let min_lat := BOUNDS.max_lat - max_frac_lat * SPAN
    let min_frac_lon : ℚ := (idxLon : ℚ) / (POWER : ℚ)
    let max_frac_lon : ℚ := ((idxLon : ℚ) + 1) / (POWER : ℚ)
    let min_lon := BOUNDS.min_lon + min_frac_lon * SPAN
    let max_lon := BOUNDS.min_lon + max_frac_lon * SPAN
    .ok ⟨min_lat, max_lat, min_lon, max_lon⟩

end Decoding

end Digipin

deriving instance DecidableEq for Except

namespace Digipin

/-! ### Derived definitions used by the verification -/

/-- Whether a decode-side lookup of this character succeeds (`LOOKUP` hit on a
code point below 128). -/
def validChar (ch : Char) : Bool :=
  match Decode.find_char_in_grid ch with
  | .ok _ => true
  | .error _ => false

/-- Horner recombination of base-4 digits, most significant first. -/
def hornerAcc (l : List Nat) (a : Nat) : Nat := l.foldl (fun x d => 4 * x + d) a

/-- The ten two-bit digits that the encoder extracts from a 20-bit index. -/
def rowDigits (v : Nat) : List Nat :=
  [(v >>> 18) &&& 3, (v >>> 16) &&& 3, (v >>> 14) &&& 3, (v >>> 12) &&& 3,
   (v >>> 10) &&& 3, (v >>> 8) &&& 3, (v >>> 6) &&& 3, (v >>> 4) &&& 3,
   (v >>> 2) &&& 3, (v >>> 0) &&& 3]

/-- Character b arises from a by optionally lowercasing one of the eight
uppercase letter symbols of the grid. -/
def caseAlias (a b : Char) : Prop :=
  b = a ∨ (a ∈ ['F', 'C', 'J', 'K', 'L', 'M', 'P', 'T'] ∧ b = a.toLower)

/-- Relation between the results of the decoding loop on two case-aliased
streams: identical outcome up to the (aliased) unconsumed remainder. -/
def coreRel : Except DigipinError (Nat × Nat × Nat × List Char) →
    Except DigipinError (Nat × Nat × Nat × List Char) → Prop
  | .error e, .error e' => e = e'
  | .ok (a, b, c, r), .ok (a', b', c', r') =>
      a = a' ∧ b = b' ∧ c = c' ∧ List.Forall₂ caseAlias r r'
  | _, _ => False

/-! ### General helper lemmas -/

lemma and_three (x : Nat) : x &&& 3 = x % 4 := by
  have h := Nat.and_pow_two_sub_one_eq_mod x 2
  norm_num at h
  exact h

/-- The u32 accumulation step `((idx << 2) % 2^32) | digit` with a two-bit
digit is plain arithmetic. -/
lemma step_or (a r : Nat) (hr : r < 4) :
    ((a <<< 2) % 2 ^ 32) ||| r = 4 * (a % 2 ^ 30) + r := by
  have harg : (a <<< 2) % 2 ^ 32 = 2 ^ 2 * (a % 2 ^ 30) := by
    rw [Nat.shiftLeft_eq, Nat.mul_comm]
    have h := Nat.mul_mod_mul_left (2 ^ 2) a (2 ^ 30)
    have e : (2 : Nat) ^ 2 * 2 ^ 30 = 2 ^ 32 := by norm_num
    rw [e] at h
    exact h
  rw [harg, ← Nat.mul_add_lt_is_or (show r < 2 ^ 2 by omega) (a % 2 ^ 30)]

lemma LOOKUP_lt {ch : Char} {r c : Nat} (h : LOOKUP ch = some (r, c)) :
    r < 4 ∧ c < 4 := by
  unfold LOOKUP at h
  split at h <;>
    first
      | (simp only [Option.some.injEq, Prod.mk.injEq] at h; omega)
      | simp at h

lemma find_gridAt : ∀ r < 4, ∀ c < 4,
    Decode.find_char_in_grid (gridAt r c) = .ok (r, c) := by decide

lemma gridAt_mem_SYMBOLS : ∀ r < 4, ∀ c < 4, gridAt r c ∈ SYMBOLS := by decide

lemma gridAt_ne_dash : ∀ r < 4, ∀ c < 4, (gridAt r c != '-') = true := by decide

lemma gridAt_and_mem (x y : Nat) : gridAt (x &&& 3) (y &&& 3) ∈ SYMBOLS :=
  gridAt_mem_SYMBOLS _ (by rw [and_three]; omega) _ (by rw [and_three]; omega)

lemma gridAt_and_ne_dash (x y : Nat) : (gridAt (x &&& 3) (y &&& 3) != '-') = true :=
  gridAt_ne_dash _ (by rw [and_three]; omega) _ (by rw [and_three]; omega)

lemma find_of_validChar {ch : Char} (h : validChar ch = true) :
    ∃ rc, Decode.find_char_in_grid ch = .ok rc := by
  unfold validChar at h
  cases hf : Decode.find_char_in_grid ch with
  | ok rc => exact ⟨rc, rfl⟩
  | error e => rw [hf] at h; simp at h

lemma find_error_shape {ch : Char} {e : DigipinError}
    (h : Decode.find_char_in_grid ch = .error e) : e = .InvalidCharacter ch := by
  unfold Decode.find_char_in_grid at h
  split at h
  · simp_all
  · split at h <;> simp_all

lemma find_of_not_validChar {ch : Char} (h : validChar ch = false) :
    Decode.find_char_in_grid ch = .error (.InvalidCharacter ch) := by
  unfold validChar at h
  cases hf : Decode.find_char_in_grid ch with
  | ok rc => rw [hf] at h; simp at h
  | error e => rw [find_error_shape hf]

lemma find_ok_LOOKUP {ch : Char} {rc : Nat × Nat}
    (h : Decode.find_char_in_grid ch = .ok rc) : LOOKUP ch = some rc := by
  unfold Decode.find_char_in_grid at h
  split at h
  · exact absurd h (by simp)
  · cases hl : LOOKUP ch with
    | some rc' => rw [hl] at h; simp_all
    | none => rw [hl] at h; exact absurd h (by simp)

lemma rowDigits_lt (v : Nat) : ∀ d ∈ rowDigits v, d < 4 := by
  intro d hd
  simp only [rowDigits, List.mem_cons, List.not_mem_nil, or_false] at hd
  rcases hd with h | h | h | h | h | h | h | h | h | h <;>
    (subst h; rw [and_three]; omega)

lemma hornerAcc_rowDigits (v : Nat) (hv : v < 2 ^ 20) : hornerAcc (rowDigits v) 0 = v := by
  simp only [hornerAcc, rowDigits, List.foldl, and_three, Nat.shiftRight_eq_div_pow]
  norm_num
  omega

/-! ### Behavior of the decoding loop of src/src/decode.rs -/

lemma decodeCore_cons {n : Nat} {ch : Char} {rest : List Char} {r c : Nat} (a b cnt : Nat)
    (h : Decode.find_char_in_grid ch = .ok (r, c)) :
    Decode.decodeCore (n + 1) (ch :: rest) a b cnt =
      Decode.decodeCore n rest (((a <<< 2) % 2 ^ 32) ||| r)
        (((b <<< 2) % 2 ^ 32) ||| c) (cnt + 1) := by
  simp [Decode.decodeCore, h]

/-- Parsing the symbols of two digit lists from the grid recomputes the Horner
recombination of the digits. -/
lemma decodeCore_grid (rows : List Nat) : ∀ (cols : List Nat) (a b cnt : Nat),
    rows.length = cols.length →
    (∀ r ∈ rows, r < 4) → (∀ c ∈ cols, c < 4) →
    4 ^ rows.length * (a + 1) ≤ 2 ^ 30 → 4 ^ rows.length * (b + 1) ≤ 2 ^ 30 →
    Decode.decodeCore rows.length (List.zipWith gridAt rows cols) a b cnt =
      .ok (hornerAcc rows a, hornerAcc cols b, cnt + rows.length, []) := by
  induction rows with
  | nil =>
    intro cols a b cnt hlen _ _ _ _
    cases cols with
    | nil => simp [Decode.decodeCore, hornerAcc]
    | cons c cs => simp at hlen
  | cons r rs ih =>
    intro cols a b cnt hlen hr hc ha hb
    cases cols with
    | nil => simp at hlen
    | cons c cs =>
      have hr4 : r < 4 := hr r (by simp)
      have hc4 : c < 4 := hc c (by simp)
      have hone : (1 : Nat) ≤ 4 ^ rs.length := Nat.one_le_pow _ _ (by norm_num)
      have hkey : ∀ x : Nat, 4 ^ (rs.length + 1) * (x + 1) ≤ 2 ^ 30 → 4 * (x + 1) ≤ 2 ^ 30 := by
        intro x hx
        have h1 : 4 * (x + 1) ≤ 4 ^ rs.length * (4 * (x + 1)) :=
          Nat.le_mul_of_pos_left _ (by omega)
        have h2 : 4 ^ rs.length * (4 * (x + 1)) = 4 ^ (rs.length + 1) * (x + 1) := by
          rw [Nat.pow_succ]; ring
        omega
      have ha30 : a < 2 ^ 30 := by have := hkey a ha; omega
      have hb30 : b < 2 ^ 30 := by have := hkey b hb; omega
      have hstep : ∀ x d : Nat, d < 4 →
          4 ^ (rs.length + 1) * (x + 1) ≤ 2 ^ 30 →
          4 ^ rs.length * (4 * x + d + 1) ≤ 2 ^ 30 := by
        intro x d hd hx
        have h1 : 4 * x + d + 1 ≤ 4 * (x + 1) := by omega
        calc 4 ^ rs.length * (4 * x + d + 1) ≤ 4 ^ rs.length * (4 * (x + 1)) :=
              Nat.mul_le_mul_left _ h1
          _ = 4 ^ (rs.length + 1) * (x + 1) := by rw [Nat.pow_succ]; ring
          _ ≤ 2 ^ 30 := hx
      have hcnt : cnt + (rs.length + 1) = (cnt + 1) + rs.length := by omega
      simp only [List.zipWith, List.length_cons]
      rw [decodeCore_cons a b cnt (find_gridAt r hr4 c hc4), step_or a r hr4,
        step_or b c hc4, Nat.mod_eq_of_lt ha30, Nat.mod_eq_of_lt hb30, hcnt]
      have hout : hornerAcc (r :: rs) a = hornerAcc rs (4 * a + r) := rfl
      have hout' : hornerAcc (c :: cs) b = hornerAcc cs (4 * b + c) := rfl
      rw [hout, hout']
      exact ih cs (4 * a + r) (4 * b + c) (cnt + 1) (by simpa using hlen)
        (fun x hx => hr x (by simp [hx])) (fun x hx => hc x (by simp [hx]))
        (hstep a r hr4 ha) (hstep b c hc4 hb)

/-- Successful parses produce indices bounded by `4 ^ fuel`. -/
lemma decodeCore_lt {n : Nat} : ∀ {cs : List Char} {a b cnt a' b' cnt' : Nat}
    {rest : List Char},
    Decode.decodeCore n cs a b cnt = .ok (a', b', cnt', rest) →
    a' < 4 ^ n * (a + 1) ∧ b' < 4 ^ n * (b + 1) := by
  induction n with
  | zero =>
    intro cs a b cnt a' b' cnt' rest h
    simp only [Decode.decodeCore, Except.ok.injEq, Prod.mk.injEq] at h
    omega
  | succ n ih =>
    intro cs a b cnt a' b' cnt' rest h
    cases cs with
    | nil => simp [Decode.decodeCore] at h
    | cons ch cs' =>
      cases hf : Decode.find_char_in_grid ch with
      | error e =>
        simp only [Decode.decodeCore] at h
        rw [hf] at h
        simp at h
      | ok rc =>
        obtain ⟨r, c⟩ := rc
        have hrc := LOOKUP_lt (find_ok_LOOKUP hf)
        rw [decodeCore_cons a b cnt hf, step_or a r hrc.1, step_or b c hrc.2] at h
        obtain ⟨h1, h2⟩ := ih h
        constructor
        · calc a' < 4 ^ n * (4 * (a % 2 ^ 30) + r + 1) := h1
            _ ≤ 4 ^ n * (4 * (a + 1)) :=
              Nat.mul_le_mul_left _ (by have := Nat.mod_le a (2 ^ 30); omega)
            _ = 4 ^ (n + 1) * (a + 1) := by rw [Nat.pow_succ]; ring
        · calc b' < 4 ^ n * (4 * (b % 2 ^ 30) + c + 1) := h2
            _ ≤ 4 ^ n * (4 * (b + 1)) :=
              Nat.mul_le_mul_left _ (by have := Nat.mod_le b (2 ^ 30); omega)
            _ = 4 ^ (n + 1) * (b + 1) := by rw [Nat.pow_succ]; ring

/-- Consuming a list of `n` characters that all resolve in the lookup table
succeeds and leaves exactly the appended remainder. -/
lemma decodeCore_ok_of_valid (xs : List Char) : ∀ (n : Nat) (rest : List Char) (a b cnt : Nat),
    xs.length = n → (∀ ch ∈ xs, validChar ch = true) →
    ∃ a' b', Decode.decodeCore n (xs ++ rest) a b cnt = .ok (a', b', cnt + n, rest) := by
  induction xs with
  | nil =>
    intro n rest a b cnt hlen _
    subst hlen
    exact ⟨a, b, by simp [Decode.decodeCore]⟩
  | cons ch xs' ih =>
    intro n rest a b cnt hlen hv
    subst hlen
    obtain ⟨⟨r, c⟩, hf⟩ := find_of_validChar (hv ch (by simp))
    have hcnt : cnt + (xs'.length + 1) = (cnt + 1) + xs'.length := by omega
    rw [List.cons_append, List.length_cons, decodeCore_cons a b cnt hf, hcnt]
    exact ih xs'.length rest _ _ (cnt + 1) rfl (fun x hx => hv x (by simp [hx]))

/-- Hitting a character that does not resolve in the lookup table, after a
valid prefix shorter than the remaining fuel, fails with exactly that
character. -/
lemma decodeCore_invalid (pre : List Char) : ∀ (n : Nat) (a b cnt : Nat) (ch : Char)
    (rest : List Char),
    pre.length < n → (∀ x ∈ pre, validChar x = true) → validChar ch = false →
    Decode.decodeCore n (pre ++ ch :: rest) a b cnt = .error (.InvalidCharacter ch) := by
  induction pre with
  | nil =>
    intro n a b cnt ch rest hlen _ hch
    cases n with
    | zero => simp at hlen
    | succ m => simp [Decode.decodeCore, find_of_not_validChar hch]
  | cons x pre' ih =>
    intro n a b cnt ch rest hlen hv hch
    cases n with
    | zero => simp at hlen
    | succ m =>
      obtain ⟨⟨r, c⟩, hf⟩ := find_of_validChar (hv x (by simp))
      rw [List.cons_append, decodeCore_cons a b cnt hf]
      exact ih m _ _ (cnt + 1) ch rest (by simp at hlen; omega)
        (fun y hy => hv y (by simp [hy])) hch

/-- Filtering the separators out of an encoded string leaves exactly the ten
grid symbols of the two digit sequences. -/
lemma filter_digipinChars (v w : Nat) :
    (Encode.digipinChars v w).filter (fun c => c != '-') =
      List.zipWith gridAt (rowDigits v) (rowDigits w) := by
  simp [Encode.digipinChars, rowDigits, List.filter, gridAt_and_ne_dash]

/-! ### Arithmetic facts about the scaling step of the encoder -/

lemma scaleIndex_lt (f : ℚ) : Encode.scaleIndex f < 2 ^ 20 := by
  have h := min_le_right (⌊f * (POWER : ℚ)⌋.toNat) (POWER - 1)
  unfold Encode.scaleIndex
  unfold POWER at h ⊢
  omega

lemma scaleIndex_le {f : ℚ} (h0 : 0 ≤ f) :
    (Encode.scaleIndex f : ℚ) ≤ f * 2 ^ 20 := by
  have hP : ((POWER : Nat) : ℚ) = 2 ^ 20 := by norm_num [POWER]
  have hnn : (0 : ℚ) ≤ f * (POWER : ℚ) := by
    apply mul_nonneg h0
    rw [hP]; norm_num
  have hfl : (0 : ℤ) ≤ ⌊f * (POWER : ℚ)⌋ := Int.floor_nonneg.mpr hnn
  have h1 : (Encode.scaleIndex f : ℚ) ≤ (⌊f * (POWER : ℚ)⌋.toNat : ℚ) := by
    exact_mod_cast min_le_left (⌊f * (POWER : ℚ)⌋.toNat) (POWER - 1)
  have h2 : ((⌊f * (POWER : ℚ)⌋.toNat : ℕ) : ℚ) = ((⌊f * (POWER : ℚ)⌋ : ℤ) : ℚ) := by
    exact_mod_cast congrArg (fun z : ℤ => (z : ℚ)) (Int.toNat_of_nonneg hfl)
  have h3 : ((⌊f * (POWER : ℚ)⌋ : ℤ) : ℚ) ≤ f * (POWER : ℚ) := Int.floor_le _
  rw [hP] at h3
  calc (Encode.scaleIndex f : ℚ) ≤ _ := h1
    _ = _ := h2
    _ ≤ f * 2 ^ 20 := h3

lemma le_scaleIndex_add_one {f : ℚ} (h1 : f ≤ 1) :
    f * 2 ^ 20 ≤ (Encode.scaleIndex f : ℚ) + 1 := by
  have hP : ((POWER : Nat) : ℚ) = 2 ^ 20 := by norm_num [POWER]
  unfold Encode.scaleIndex
  rw [hP]
  rcases le_or_lt (⌊f * (2 ^ 20 : ℚ)⌋.toNat) (POWER - 1) with h | h
  · rw [min_eq_left h]
    have hlt : f * (2 ^ 20 : ℚ) < (⌊f * (2 ^ 20 : ℚ)⌋ : ℚ) + 1 := Int.lt_floor_add_one _
    have hle : ((⌊f * (2 ^ 20 : ℚ)⌋ : ℤ) : ℚ) ≤ ((⌊f * (2 ^ 20 : ℚ)⌋.toNat : ℕ) : ℚ) := by
      exact_mod_cast Int.self_le_toNat _
    linarith
  · rw [min_eq_right (le_of_lt h)]
    have hfP : f * (2 ^ 20 : ℚ) ≤ (2 ^ 20 : ℚ) := by nlinarith
    have hcast : ((POWER - 1 : Nat) : ℚ) + 1 = (2 ^ 20 : ℚ) := by norm_num [POWER]
    linarith

/-- Unfolding of `get_digipin` on in-range inputs. -/
lemma get_digipin_ok {lat lon : ℚ} (h1 : 5/2 ≤ lat) (h2 : lat ≤ 77/2)
    (h3 : 127/2 ≤ lon) (h4 : lon ≤ 199/2) :
    Encode.get_digipin lat lon =
      .ok (Encode.digipinChars (Encode.scaleIndex ((77/2 - lat) / 36))
        (Encode.scaleIndex ((lon - 127/2) / 36))) := by
  unfold Encode.get_digipin
  rw [if_neg (not_not_intro ⟨by simpa [BOUNDS] using h1, by simpa [BOUNDS] using h2⟩),
    if_neg (not_not_intro ⟨by simpa [BOUNDS] using h3, by simpa [BOUNDS] using h4⟩)]
  simp [BOUNDS, SPAN]

/-- Decoding an encoder output recovers exactly the encoder's pair of cell
indices and returns the corresponding cell center. -/
lemma decode_digipinChars {v w : Nat} (hv : v < 2 ^ 20) (hw : w < 2 ^ 20) :
    Decode.get_coordinates_from_digipin (Encode.digipinChars v w) =
      .ok ⟨77/2 - (((v : ℚ) + 1/2) / 2 ^ 20) * 36, 127/2 + (((w : ℚ) + 1/2) / 2 ^ 20) * 36⟩ := by
  have hlen : (rowDigits v).length = 10 := by simp [rowDigits]
  have hcore : Decode.decodeCore 10 ((Encode.digipinChars v w).filter (fun c => c != '-'))
      0 0 0 = .ok (v, w, 10, []) := by
    rw [filter_digipinChars]
    have h := decodeCore_grid (rowDigits v) (rowDigits w) 0 0 0 (by simp [rowDigits])
      (rowDigits_lt v) (rowDigits_lt w) (by rw [hlen]; norm_num) (by rw [hlen]; norm_num)
    rw [hornerAcc_rowDigits v hv, hornerAcc_rowDigits w hw, hlen, Nat.zero_add] at h
    exact h
  unfold Decode.get_coordinates_from_digipin
  rw [hcore]
  have hP : ((POWER : Nat) : ℚ) = 2 ^ 20 := by norm_num [POWER]
  simp [BOUNDS, SPAN, hP]

/-- Round trip within half a cell on each axis, for any in-range input. -/
lemma round_trip_aux (lat lon : ℚ) (h1 : 5/2 ≤ lat) (h2 : lat ≤ 77/2)
    (h3 : 127/2 ≤ lon) (h4 : lon ≤ 199/2) :
    ∃ code c, Encode.get_digipin lat lon = .ok code ∧
      Decode.get_coordinates_from_digipin code = .ok c ∧
      |c.latitude - lat| ≤ 36 / 2 ^ 20 / 2 ∧ |c.longitude - lon| ≤ 36 / 2 ^ 20 / 2 := by
  have henc := get_digipin_ok h1 h2 h3 h4
  have hdec := decode_digipinChars (scaleIndex_lt ((77/2 - lat) / 36))
    (scaleIndex_lt ((lon - 127/2) / 36))
  refine ⟨_, _, henc, hdec, ?_, ?_⟩
  · show |77/2 - (((Encode.scaleIndex ((77/2 - lat) / 36) : ℚ) + 1/2) / 2 ^ 20) * 36 - lat| ≤
      36 / 2 ^ 20 / 2
    have hf0 : (0 : ℚ) ≤ (77/2 - lat) / 36 := div_nonneg (by linarith) (by norm_num)
    have hf1 : (77/2 - lat) / 36 ≤ 1 := by
      rw [div_le_one (by norm_num : (0:ℚ) < 36)]
      linarith
    have hA := scaleIndex_le hf0
    have hB := le_scaleIndex_add_one hf1
    rw [abs_le]
    constructor <;> linarith
  · show |127/2 + (((Encode.scaleIndex ((lon - 127/2) / 36) : ℚ) + 1/2) / 2 ^ 20) * 36 - lon| ≤
      36 / 2 ^ 20 / 2
    have hf0 : (0 : ℚ) ≤ (lon - 127/2) / 36 := div_nonneg (by linarith) (by norm_num)
    have hf1 : (lon - 127/2) / 36 ≤ 1 := by
      rw [div_le_one (by norm_num : (0:ℚ) < 36)]
      linarith
    have hA := scaleIndex_le hf0
    have hB := le_scaleIndex_add_one hf1
    rw [abs_le]
    constructor <;> linarith

/-! ### The claims -/

/-- Claim C1: for every (latitude, longitude) with 2.5 ≤ latitude ≤ 38.5 and
63.5 ≤ longitude ≤ 99.5, `get_digipin` returns Ok with a code, decoding that
code returns Ok coordinates, and the decoded point is within half a cell
width (36/2^20/2) of the original on each axis. -/
theorem C1_round_trip_bound (lat lon : ℚ) (h1 : 5/2 ≤ lat) (h2 : lat ≤ 77/2)
    (h3 : 127/2 ≤ lon) (h4 : lon ≤ 199/2) :
    ∃ code c, Encode.get_digipin lat lon = .ok code ∧
      Decode.get_coordinates_from_digipin code = .ok c ∧
      |c.latitude - lat| ≤ 36 / 2 ^ 20 / 2 ∧ |c.longitude - lon| ≤ 36 / 2 ^ 20 / 2 :=
  round_trip_aux lat lon h1 h2 h3 h4

/-- Witness for C1 at the New Delhi reference coordinates (28.6139, 77.2090). -/
theorem C1_round_trip_bound_witness :
    ∃ code c, Encode.get_digipin (286139/10000) (772090/10000) = .ok code ∧
      Decode.get_coordinates_from_digipin code = .ok c ∧
      |c.latitude - 286139/10000| ≤ 36 / 2 ^ 20 / 2 ∧
      |c.longitude - 772090/10000| ≤ 36 / 2 ^ 20 / 2 :=
  C1_round_trip_bound (286139/10000) (772090/10000) (by norm_num) (by norm_num)
    (by norm_num) (by norm_num)

/-- Claim C2: a normalized fraction of exactly 1.0 (latitude 2.5, or longitude
99.5) is clamped to index power−1 = 2^20−1, and each of the four rectangle
corners encodes successfully and decodes back within the half-cell bound. -/
theorem C2_boundary_clamping :
    Encode.scaleIndex ((BOUNDS.max_lat - 5/2) / SPAN) = POWER - 1 ∧
    Encode.scaleIndex (((199/2 : ℚ) - BOUNDS.min_lon) / SPAN) = POWER - 1 ∧
    (∃ code c, Encode.get_digipin (5/2) (127/2) = .ok code ∧
      Decode.get_coordinates_from_digipin code = .ok c ∧
      |c.latitude - 5/2| ≤ 36 / 2 ^ 20 / 2 ∧ |c.longitude - 127/2| ≤ 36 / 2 ^ 20 / 2) ∧
    (∃ code c, Encode.get_digipin (5/2) (199/2) = .ok code ∧
      Decode.get_coordinates_from_digipin code = .ok c ∧
      |c.latitude - 5/2| ≤ 36 / 2 ^ 20 / 2 ∧ |c.longitude - 199/2| ≤ 36 / 2 ^ 20 / 2) ∧
    (∃ code c, Encode.get_digipin (77/2) (127/2) = .ok code ∧
      Decode.get_coordinates_from_digipin code = .ok c ∧
      |c.latitude - 77/2| ≤ 36 / 2 ^ 20 / 2 ∧ |c.longitude - 127/2| ≤ 36 / 2 ^ 20 / 2) ∧
    (∃ code c, Encode.get_digipin (77/2) (199/2) = .ok code ∧
      Decode.get_coordinates_from_digipin code = .ok c ∧
      |c.latitude - 77/2| ≤ 36 / 2 ^ 20 / 2 ∧ |c.longitude - 199/2| ≤ 36 / 2 ^ 20 / 2) := by
  refine ⟨?_, ?_,
    round_trip_aux (5/2) (127/2) (by norm_num) (by norm_num) (by norm_num) (by norm_num),
    round_trip_aux (5/2) (199/2) (by norm_num) (by norm_num) (by norm_num) (by norm_num),
    round_trip_aux (77/2) (127/2) (by norm_num) (by norm_num) (by norm_num) (by norm_num),
    round_trip_aux (77/2) (199/2) (by norm_num) (by norm_num) (by norm_num) (by norm_num)⟩
  · norm_num [Encode.scaleIndex, BOUNDS, SPAN, POWER]
  · norm_num [Encode.scaleIndex, BOUNDS, SPAN, POWER]

/-- Claim C3: `get_digipin` fails with `LatitudeOutOfRange latitude` exactly
when latitude is outside [2.5, 38.5]; with latitude in range it fails with
`LongitudeOutOfRange longitude` exactly when longitude is outside
[63.5, 99.5]; the latitude check precedes the longitude check. -/
theorem C3_range_errors (lat lon : ℚ) :
    (Encode.get_digipin lat lon = .error (.LatitudeOutOfRange lat) ↔
      (lat < 5/2 ∨ 77/2 < lat)) ∧
    ((5/2 ≤ lat ∧ lat ≤ 77/2) →
      (Encode.get_digipin lat lon = .error (.LongitudeOutOfRange lon) ↔
        (lon < 127/2 ∨ 199/2 < lon))) := by
  have hb1 : BOUNDS.min_lat = 5/2 := rfl
  have hb2 : BOUNDS.max_lat = 77/2 := rfl
  have hb3 : BOUNDS.min_lon = 127/2 := rfl
  have hb4 : BOUNDS.max_lon = 199/2 := rfl
  unfold Encode.get_digipin
  rw [hb1, hb2, hb3, hb4]
  by_cases hA : (5/2 : ℚ) ≤ lat ∧ lat ≤ 77/2
  · rw [if_neg (not_not_intro hA)]
    constructor
    · constructor
      · intro h
        exfalso
        split at h <;> simp_all
      · intro h
        rcases h with h | h <;> linarith [hA.1, hA.2]
    · intro _
      by_cases hL : (127/2 : ℚ) ≤ lon ∧ lon ≤ 199/2
      · rw [if_neg (not_not_intro hL)]
        constructor
        · intro h
          simp at h
        · intro h
          rcases h with h | h <;> linarith [hL.1, hL.2]
      · rw [if_pos hL]
        constructor
        · intro _
          by_contra hc
          push_neg at hc
          exact hL ⟨by linarith [hc.1], by linarith [hc.2]⟩
        · intro _
          rfl
  · rw [if_pos hA]
    constructor
    · constructor
      · intro _
        by_contra hc
        push_neg at hc
        exact hA ⟨by linarith [hc.1], by linarith [hc.2]⟩
      · intro _
        rfl
    · intro h'
      exact absurd h' hA

/-- Witness for C3: a too-large latitude and a too-large longitude each
produce the corresponding error. -/
theorem C3_range_errors_witness :
    Encode.get_digipin 50 77 = .error (.LatitudeOutOfRange 50) ∧
    Encode.get_digipin 28 120 = .error (.LongitudeOutOfRange 120) := by
  constructor
  · exact (C3_range_errors 50 77).1.mpr (by norm_num)
  · exact ((C3_range_errors 28 120).2 (by norm_num)).mpr (by norm_num)

/-- Claim C4 (code bug): the input FCJ-3F9-82-3 consists of 9 grid symbols
plus three separators, so by the separator-stripping contract it should fail
with InvalidLength 9 — the `decode.rs` decoder does exactly that — but the
length-12 fast path of `decoding.rs` `parse_ascii` looks the extra separator
up as a symbol and fails with InvalidCharacter of the separator instead. -/
theorem C4_separator_fast_path_bug :
    ("FCJ-3F9-82-3".toList.filter (fun c => c != '-')).length = 9 ∧
    (∀ ch ∈ "FCJ-3F9-82-3".toList, ch ∈ SYMBOLS ∨ ch = '-') ∧
    Decoding.get_coordinates_from_digipin "FCJ-3F9-82-3".toList =
      .error (.InvalidCharacter '-') ∧
    Decode.get_coordinates_from_digipin "FCJ-3F9-82-3".toList =
      .error (.InvalidLength 9) :=
  ⟨by decide, by decide, by decide, by decide⟩

/-- Claim C5 counterexample: the string fCJ3F98273 contains the character f,
which is outside the 16-symbol grid alphabet, yet the decoder built on the
shared lookup table accepts it instead of failing with InvalidCharacter. -/
theorem C5_counterexample :
    'f' ∉ SYMBOLS ∧ 'f' ∈ "fCJ3F98273".toList ∧
    ∃ c, Decode.get_coordinates_from_digipin "fCJ3F98273".toList = .ok c := by
  refine ⟨by decide, by decide, ⟨⟨19816061/524288, 34559155/524288⟩, ?_⟩⟩
  have h1 : Decode.decodeCore 10 ("fCJ3F98273".toList.filter (fun c => c != '-')) 0 0 0 =
      .ok (20501, 70381, 10, []) := by decide
  unfold Decode.get_coordinates_from_digipin
  rw [h1]
  norm_num [BOUNDS, SPAN, POWER]

/-- Claim C5 (amended): if, among the first ten non-separator characters, some
character fails the lookup (whose alphabet is the 16 grid symbols plus the
lowercase aliases f c j k l m p t), decoding fails with InvalidCharacter
carrying exactly the first such character — in particular character validity
is checked before length exhaustion. -/
theorem C5_invalid_character_first (s pre post : List Char) (ch : Char)
    (h : (s.filter (fun c => c != '-')).take 10 = pre ++ ch :: post)
    (hpre : ∀ x ∈ pre, validChar x = true)
    (hch : validChar ch = false) :
    Decode.get_coordinates_from_digipin s = .error (.InvalidCharacter ch) := by
  unfold Decode.get_coordinates_from_digipin
  have hlen : pre.length < 10 := by
    have hl := congrArg List.length h
    rw [List.length_take, List.length_append, List.length_cons] at hl
    omega
  have hsplit : s.filter (fun c => c != '-') =
      pre ++ ch :: (post ++ (s.filter (fun c => c != '-')).drop 10) := by
    conv_lhs => rw [← List.take_append_drop 10 (s.filter (fun c => c != '-')), h]
    simp [List.append_assoc]
  rw [hsplit, decodeCore_invalid pre 10 0 0 0 ch _ hlen hpre hch]

/-- Witness for C5 (amended): an invalid Z after four valid symbols of a
ten-character input. -/
theorem C5_invalid_character_first_witness :
    Decode.get_coordinates_from_digipin "FCJ3Z98273".toList =
      .error (.InvalidCharacter 'Z') :=
  C5_invalid_character_first "FCJ3Z98273".toList ['F', 'C', 'J', '3']
    ['9', '8', '2', '7', '3'] 'Z' (by decide) (by decide) (by decide)

/-- Claim C6 counterexample: ZZZZZZZZZZZ has 11 non-separator characters, but
the decoder reports InvalidCharacter Z, not the InvalidLength 11 sentinel the
claim promises for every such string. -/
theorem C6_counterexample :
    ("ZZZZZZZZZZZ".toList.filter (fun c => c != '-')).length = 11 ∧
    Decode.get_coordinates_from_digipin "ZZZZZZZZZZZ".toList =
      .error (.InvalidCharacter 'Z') ∧
    DigipinError.InvalidCharacter 'Z' ≠ DigipinError.InvalidLength 11 :=
  ⟨by decide, by decide, by decide⟩

/-- Claim C6 (amended): when the first ten non-separator characters are all
valid lookup symbols and more than ten non-separator characters are present,
decoding fails with the fixed sentinel InvalidLength 11. -/
theorem C6_too_many_symbols (s : List Char)
    (hlong : 10 < (s.filter (fun c => c != '-')).length)
    (hval : ∀ x ∈ (s.filter (fun c => c != '-')).take 10, validChar x = true) :
    Decode.get_coordinates_from_digipin s = .error (.InvalidLength 11) := by
  unfold Decode.get_coordinates_from_digipin
  obtain ⟨a', b', hcore⟩ := decodeCore_ok_of_valid ((s.filter (fun c => c != '-')).take 10)
    10 ((s.filter (fun c => c != '-')).drop 10) 0 0 0 (by rw [List.length_take]; omega) hval
  cases hd : (s.filter (fun c => c != '-')).drop 10 with
  | nil =>
    have := congrArg List.length hd
    rw [List.length_drop] at this
    simp at this
    omega
  | cons y ys =>
    rw [hd] at hcore
    have hsplit : s.filter (fun c => c != '-') =
        (s.filter (fun c => c != '-')).take 10 ++ y :: ys := by
      conv_lhs => rw [← List.take_append_drop 10 (s.filter (fun c => c != '-')), hd]
    rw [hsplit, hcore]

/-- Witness for C6 (amended): ten valid symbols followed by an eleventh. -/
theorem C6_too_many_symbols_witness :
    Decode.get_coordinates_from_digipin "FCJ3F98273F".toList =
      .error (.InvalidLength 11) :=
  C6_too_many_symbols "FCJ3F98273F".toList (by decide) (by decide)

/-- Claim C7: whenever both decoders of decoding.rs succeed on a code, the
returned coordinates are exactly the midpoint of the returned bounds on both
axes. -/
theorem C7_center_is_bounds_midpoint (s : List Char) (c : Coordinates) (b : GeoBounds)
    (hc : Decoding.get_coordinates_from_digipin s = .ok c)
    (hb : Decoding.get_bounds_from_digipin s = .ok b) :
    c.latitude = (b.min_latitude + b.max_latitude) / 2 ∧
    c.longitude = (b.min_longitude + b.max_longitude) / 2 := by
  unfold Decoding.get_coordinates_from_digipin at hc
  unfold Decoding.get_bounds_from_digipin at hb
  cases hp : Decoding.parseDigipin s with
  | error e => rw [hp] at hc; simp at hc
  | ok ij =>
    obtain ⟨i, j⟩ := ij
    rw [hp] at hc hb
    simp only [Except.ok.injEq] at hc hb
    subst hc
    subst hb
    have hP0 : ((POWER : Nat) : ℚ) ≠ 0 := by norm_num [POWER]
    constructor
    · show BOUNDS.max_lat - ((i : ℚ) + 1/2) / (POWER : ℚ) * SPAN =
        ((BOUNDS.max_lat - ((i : ℚ) + 1) / (POWER : ℚ) * SPAN) +
          (BOUNDS.max_lat - (i : ℚ) / (POWER : ℚ) * SPAN)) / 2
      field_simp
      ring
    · show BOUNDS.min_lon + ((j : ℚ) + 1/2) / (POWER : ℚ) * SPAN =
        ((BOUNDS.min_lon + (j : ℚ) / (POWER : ℚ) * SPAN) +
          (BOUNDS.min_lon + ((j : ℚ) + 1) / (POWER : ℚ) * SPAN)) / 2
      field_simp
      ring

/-- Concrete parse of the reference code through the decoding.rs fast path. -/
lemma parse_FCJ_hyphenated :
    Decoding.parseDigipin "FCJ-3F9-8273".toList = .ok (20501, 70381) := by decide

/-- Concrete coordinates of the reference code under decoding.rs. -/
lemma decoding_coords_FCJ :
    Decoding.get_coordinates_from_digipin "FCJ-3F9-8273".toList =
      .ok ⟨19816061/524288, 34559155/524288⟩ := by
  unfold Decoding.get_coordinates_from_digipin
  rw [parse_FCJ_hyphenated]
  norm_num [BOUNDS, SPAN, POWER]

/-- Concrete bounds of the reference code under decoding.rs. -/
lemma decoding_bounds_FCJ :
    Decoding.get_bounds_from_digipin "FCJ-3F9-8273".toList =
      .ok ⟨4954013/131072, 9908035/262144, 17279573/262144, 8639791/131072⟩ := by
  unfold Decoding.get_bounds_from_digipin
  rw [parse_FCJ_hyphenated]
  norm_num [BOUNDS, SPAN, POWER]

/-- Witness for C7 at the reference code FCJ-3F9-8273. -/
theorem C7_center_is_bounds_midpoint_witness :
    (Coordinates.mk (19816061/524288) (34559155/524288)).latitude =
      ((GeoBounds.mk (4954013/131072) (9908035/262144) (17279573/262144)
          (8639791/131072)).min_latitude +
        (GeoBounds.mk (4954013/131072) (9908035/262144) (17279573/262144)
          (8639791/131072)).max_latitude) / 2 ∧
    (Coordinates.mk (19816061/524288) (34559155/524288)).longitude =
      ((GeoBounds.mk (4954013/131072) (9908035/262144) (17279573/262144)
          (8639791/131072)).min_longitude +
        (GeoBounds.mk (4954013/131072) (9908035/262144) (17279573/262144)
          (8639791/131072)).max_longitude) / 2 :=
  C7_center_is_bounds_midpoint "FCJ-3F9-8273".toList
    ⟨19816061/524288, 34559155/524288⟩
    ⟨4954013/131072, 9908035/262144, 17279573/262144, 8639791/131072⟩
    decoding_coords_FCJ decoding_bounds_FCJ

/-- Claim C8: on in-range input the encoder output is exactly 12 characters,
with separators at positions 3 and 7 and a grid symbol at each of the other
ten positions (grammar SYM SYM SYM - SYM SYM SYM - SYM SYM SYM SYM). -/
theorem C8_output_format (lat lon : ℚ) (h1 : 5/2 ≤ lat) (h2 : lat ≤ 77/2)
    (h3 : 127/2 ≤ lon) (h4 : lon ≤ 199/2) :
    ∃ code, Encode.get_digipin lat lon = .ok code ∧ code.length = 12 ∧
      code.getD 3 '?' = '-' ∧ code.getD 7 '?' = '-' ∧
      ∀ k ∈ [0, 1, 2, 4, 5, 6, 8, 9, 10, 11], code.getD k '?' ∈ SYMBOLS := by
  refine ⟨_, get_digipin_ok h1 h2 h3 h4, ?_, rfl, rfl, ?_⟩
  · simp [Encode.digipinChars]
  · intro k hk
    fin_cases hk <;> exact gridAt_and_mem _ _

/-- Witness for C8 at (28, 77). -/
theorem C8_output_format_witness :
    ∃ code, Encode.get_digipin 28 77 = .ok code ∧ code.length = 12 ∧
      code.getD 3 '?' = '-' ∧ code.getD 7 '?' = '-' ∧
      ∀ k ∈ [0, 1, 2, 4, 5, 6, 8, 9, 10, 11], code.getD k '?' ∈ SYMBOLS :=
  C8_output_format 28 77 (by norm_num) (by norm_num) (by norm_num) (by norm_num)

lemma center_lat_strict {i : Nat} (hi : i < 2 ^ 20) :
    5/2 < (77:ℚ)/2 - (((i:ℚ) + 1/2) / 2 ^ 20) * 36 ∧
    (77:ℚ)/2 - (((i:ℚ) + 1/2) / 2 ^ 20) * 36 < 77/2 := by
  have h1 : (i : ℚ) ≤ 1048575 := by
    have : i ≤ 1048575 := by omega
    exact_mod_cast this
  have h0 : (0 : ℚ) ≤ (i : ℚ) := Nat.cast_nonneg i
  constructor <;> [linarith; linarith]

lemma center_lon_strict {j : Nat} (hj : j < 2 ^ 20) :
    127/2 < (127:ℚ)/2 + (((j:ℚ) + 1/2) / 2 ^ 20) * 36 ∧
    (127:ℚ)/2 + (((j:ℚ) + 1/2) / 2 ^ 20) * 36 < 199/2 := by
  have h1 : (j : ℚ) ≤ 1048575 := by
    have : j ≤ 1048575 := by omega
    exact_mod_cast this
  have h0 : (0 : ℚ) ≤ (j : ℚ) := Nat.cast_nonneg j
  constructor <;> [linarith; linarith]

/-- Claim C9: every decoded coordinate pair lies strictly inside the bounding
rectangle, so re-encoding a decoded result always succeeds. -/
theorem C9_decoded_strictly_inside (s : List Char) (c : Coordinates)
    (h : Decode.get_coordinates_from_digipin s = .ok c) :
    (5/2 < c.latitude ∧ c.latitude < 77/2 ∧
      127/2 < c.longitude ∧ c.longitude < 199/2) ∧
    ∃ code, Encode.get_digipin c.latitude c.longitude = .ok code := by
  unfold Decode.get_coordinates_from_digipin at h
  cases hcore : Decode.decodeCore 10 (s.filter (fun c => c != '-')) 0 0 0 with
  | error e => rw [hcore] at h; simp at h
  | ok q =>
    obtain ⟨i, j, cnt, rest⟩ := q
    rw [hcore] at h
    cases rest with
    | cons y ys => simp at h
    | nil =>
      have hP : ((POWER : Nat) : ℚ) = 2 ^ 20 := by norm_num [POWER]
      simp only [show BOUNDS.max_lat = 77/2 from rfl, show BOUNDS.min_lon = 127/2 from rfl,
        show SPAN = (36:ℚ) from rfl, hP, Except.ok.injEq] at h
      obtain ⟨hi, hj⟩ := decodeCore_lt hcore
      norm_num at hi hj
      subst h
      have hla := center_lat_strict hi
      have hlo := center_lon_strict hj
      exact ⟨⟨hla.1, hla.2, hlo.1, hlo.2⟩,
        ⟨_, get_digipin_ok (le_of_lt hla.1) (le_of_lt hla.2)
          (le_of_lt hlo.1) (le_of_lt hlo.2)⟩⟩

/-- Concrete parse of the reference code through the decode.rs loop. -/
lemma decodeCore_FCJ_hyph :
    Decode.decodeCore 10 ("FCJ-3F9-8273".toList.filter (fun c => c != '-')) 0 0 0 =
      .ok (20501, 70381, 10, []) := by decide

/-- Concrete coordinates of the reference code under decode.rs. -/
lemma decode_coords_FCJ :
    Decode.get_coordinates_from_digipin "FCJ-3F9-8273".toList =
      .ok ⟨19816061/524288, 34559155/524288⟩ := by
  unfold Decode.get_coordinates_from_digipin
  rw [decodeCore_FCJ_hyph]
  norm_num [BOUNDS, SPAN, POWER]

/-- Witness for C9 at the reference code FCJ-3F9-8273. -/
theorem C9_decoded_strictly_inside_witness :
    ((5:ℚ)/2 < (Coordinates.mk (19816061/524288) (34559155/524288)).latitude ∧
      (Coordinates.mk (19816061/524288) (34559155/524288)).latitude < 77/2 ∧
      (127:ℚ)/2 < (Coordinates.mk (19816061/524288) (34559155/524288)).longitude ∧
      (Coordinates.mk (19816061/524288) (34559155/524288)).longitude < 199/2) ∧
    ∃ code, Encode.get_digipin
      (Coordinates.mk (19816061/524288) (34559155/524288)).latitude
      (Coordinates.mk (19816061/524288) (34559155/524288)).longitude = .ok code :=
  C9_decoded_strictly_inside "FCJ-3F9-8273".toList
    ⟨19816061/524288, 34559155/524288⟩ decode_coords_FCJ

/-! ### Case aliasing (claim C10) -/

lemma caseAlias_find {a b : Char} (h : caseAlias a b) :
    Decode.find_char_in_grid b = Decode.find_char_in_grid a := by
  rcases h with rfl | ⟨hmem, rfl⟩
  · rfl
  · fin_cases hmem <;> decide

lemma caseAlias_dash {a b : Char} (h : caseAlias a b) : (b != '-') = (a != '-') := by
  rcases h with rfl | ⟨hmem, rfl⟩
  · rfl
  · fin_cases hmem <;> decide

lemma filter_caseAlias {s t : List Char} (h : List.Forall₂ caseAlias s t) :
    List.Forall₂ caseAlias (s.filter (fun c => c != '-'))
      (t.filter (fun c => c != '-')) := by
  induction h with
  | nil => exact .nil
  | cons hab htl ih =>
    simp only [List.filter_cons]
    rw [caseAlias_dash hab]
    split
    · exact .cons hab ih
    · exact ih

lemma decodeCore_caseAlias (n : Nat) : ∀ {s t : List Char} (a b cnt : Nat),
    List.Forall₂ caseAlias s t →
    coreRel (Decode.decodeCore n s a b cnt) (Decode.decodeCore n t a b cnt) := by
  induction n with
  | zero =>
    intro s t a b cnt h
    exact ⟨rfl, rfl, rfl, h⟩
  | succ n ih =>
    intro s t a b cnt h
    cases h with
    | nil => simp [Decode.decodeCore, coreRel]
    | cons hab htl =>
      simp only [Decode.decodeCore]
      rw [caseAlias_find hab]
      cases hf : Decode.find_char_in_grid _ with
      | error e => simp [coreRel]
      | ok rc =>
        obtain ⟨r, c⟩ := rc
        exact ih _ _ _ htl

/-- Claim C10: the shared-lookup decoder treats the lowercase letters
f c j k l m p t as aliases of their uppercase counterparts: lowering any
subset of the letter symbols of an accepted code yields Ok with identical
coordinates. -/
theorem C10_lowercase_aliases (s t : List Char) (c : Coordinates)
    (hrel : List.Forall₂ caseAlias s t)
    (hs : Decode.get_coordinates_from_digipin s = .ok c) :
    Decode.get_coordinates_from_digipin t = .ok c := by
  unfold Decode.get_coordinates_from_digipin at hs ⊢
  have hrel' := decodeCore_caseAlias 10 0 0 0 (filter_caseAlias hrel)
  cases hcs : Decode.decodeCore 10 (s.filter (fun c => c != '-')) 0 0 0 with
  | error e => rw [hcs] at hs; simp at hs
  | ok q =>
    obtain ⟨i, j, cnt, rest⟩ := q
    rw [hcs] at hs hrel'
    cases hct : Decode.decodeCore 10 (t.filter (fun c => c != '-')) 0 0 0 with
    | error e => rw [hct] at hrel'; simp [coreRel] at hrel'
    | ok q' =>
      obtain ⟨i', j', cnt', rest'⟩ := q'
      rw [hct] at hrel'
      obtain ⟨rfl, rfl, rfl, hrest⟩ := hrel'
      cases rest with
      | cons y ys => simp at hs
      | nil =>
        cases hrest
        exact hs

/-- Concrete parse of the separator-free reference code. -/
lemma decodeCore_FCJ_plain :
    Decode.decodeCore 10 ("FCJ3F98273".toList.filter (fun c => c != '-')) 0 0 0 =
      .ok (20501, 70381, 10, []) := by decide

/-- Concrete coordinates of the separator-free reference code. -/
lemma decode_coords_FCJ_plain :
    Decode.get_coordinates_from_digipin "FCJ3F98273".toList =
      .ok ⟨19816061/524288, 34559155/524288⟩ := by
  unfold Decode.get_coordinates_from_digipin
  rw [decodeCore_FCJ_plain]
  norm_num [BOUNDS, SPAN, POWER]

/-- Witness for C10: lowercasing the leading F of the reference code yields
the identical coordinates. -/
theorem C10_lowercase_aliases_witness :
    Decode.get_coordinates_from_digipin "fCJ3F98273".toList =
      .ok ⟨19816061/524288, 34559155/524288⟩ :=
  C10_lowercase_aliases "FCJ3F98273".toList "fCJ3F98273".toList
    ⟨19816061/524288, 34559155/524288⟩
    (.cons (Or.inr ⟨by decide, by decide⟩)
      (.cons (Or.inl rfl) (.cons (Or.inl rfl) (.cons (Or.inl rfl)
        (.cons (Or.inl rfl) (.cons (Or.inl rfl) (.cons (Or.inl rfl)
          (.cons (Or.inl rfl) (.cons (Or.inl rfl) (.cons (Or.inl rfl) .nil))))))))))
    decode_coords_FCJ_plain

end Digipin
